import Mathlib

/-!
Verification of the snitchvisbot ingestion core: a shallow embedding of the
cursor store (`db.py`), the backfill engine, the startup reconciliation queue,
the live ingestion handler, the refresh scheduler and the render admission
controller (`main.py`), with theorems settling the specification claims.

Machine integers are modelled as `Nat` (discord snowflake ids and timestamps
are non-negative and far from any overflow boundary, and Python ints are
arbitrary precision anyway). SQLite tables are modelled as lists of row
structures; a plain `INSERT` into a table with a primary key fails with an
integrity error when the key is already present. Python truthiness of
nullable integer columns (`None` and `0` are falsy) is modelled explicitly.
-/

namespace Snitchvis

deriving instance DecidableEq for Except

/-- Errors that the Python code can raise on the modelled paths: a sqlite
primary-key violation (`sqlite3.IntegrityError`), and the `TypeError` Python 3
raises when comparing an `int` against `None`. -/
inductive PyError where
  | integrityError
  | typeError
deriving DecidableEq

/-- A discord message, as consumed by the ingestion core: snowflake id,
channel and guild it was sent in, raw text content, and creation timestamp
(seconds; `message.created_at.timestamp()`). -/
structure Message where
  id : Nat
  channelId : Nat
  guildId : Nat
  content : String
  createdAt : Nat
deriving DecidableEq

/-- The structured event produced by the event parser (`Event.parse` of the
snitchvis library, an external collaborator consumed as a pure function). -/
structure ParsedEvent where
  username : String
  snitch_name : Option String
  namelayer_group : String
  x : Int
  y : Int
  z : Int
deriving DecidableEq

/-- One row of the `event` table (`create_db` in db.py): columns
`message_id` (primary key), `channel_id`, `guild_id`, `username`,
`snitch_name`, `namelayer_group`, `x`, `y`, `z`, `t`. -/
structure EventRow where
  message_id : Nat
  channel_id : Nat
  guild_id : Nat
  username : String
  snitch_name : Option String
  namelayer_group : String
  x : Int
  y : Int
  z : Int
  t : Nat
deriving DecidableEq

/-- One row of the `snitch_channel` table joined with its
`snitch_channel_allowed_roles` junction rows: `guild_id`, `id` (primary key),
nullable `last_indexed_id`, and the aggregated list of allowed role ids. -/
structure SnitchChannelRow where
  guild_id : Nat
  id : Nat
  last_indexed_id : Option Nat
  allowed_roles : List Nat
deriving DecidableEq

/-- Whether the `event` table holds a row for this `message_id`. -/
def containsMessage (tbl : List EventRow) (messageId : Nat) : Bool :=
  tbl.any (fun r => r.message_id == messageId)

/-- Number of rows of the `event` table with this `message_id`. -/
def countMessage (tbl : List EventRow) (messageId : Nat) : Nat :=
  (tbl.filter (fun r => r.message_id == messageId)).length

/-- The row built by `db.add_event`: the id, channel and guild come from the
message, the payload from the parsed event, and `t` is the message's creation
timestamp (the code deliberately ignores the time parsed from the text). -/
def mkEventRow (m : Message) (e : ParsedEvent) : EventRow :=
  { message_id := m.id, channel_id := m.channelId, guild_id := m.guildId,
    username := e.username, snitch_name := e.snitch_name,
    namelayer_group := e.namelayer_group, x := e.x, y := e.y, z := e.z,
    t := m.createdAt }

/-- Embedding of `db.add_event` (db.py lines 374-386): a plain
`INSERT INTO event VALUES (...)`. The `event` table has
`PRIMARY KEY(message_id)` (db.py line 58), so sqlite raises an
`IntegrityError` when a row with the same `message_id` already exists;
otherwise the row is appended. -/
def add_event (tbl : List EventRow) (m : Message) (e : ParsedEvent) :
    Except PyError (List EventRow) :=
  if containsMessage tbl m.id then Except.error PyError.integrityError
  else Except.ok (tbl ++ [mkEventRow m e])

/-- Concrete message used to exhibit the duplicate-insert behavior. -/
def dupMsg : Message :=
  { id := 5, channelId := 100, guildId := 1, content := "ping", createdAt := 1000 }

/-- Concrete parsed event for `dupMsg`. -/
def dupEvent : ParsedEvent :=
  { username := "alice", snitch_name := some "gate", namelayer_group := "g",
    x := 10, y := 64, z := -3 }

/-- Event table already holding the row for message 5. -/
def dupTable : List EventRow := [mkEventRow dupMsg dupEvent]

/-- C1 counterexample: re-inserting a `message_id` that already has a stored
event row is not a no-op — `add_event` performs a plain `INSERT` into a table
whose primary key is `message_id`, so sqlite raises an integrity error.
Evaluated at the concrete table already containing message 5. -/
theorem add_event_reinsert_raises :
    add_event dupTable dupMsg dupEvent = Except.error PyError.integrityError := by
  rfl

/-- C1 amended: re-insertion of an already-present `message_id` raises a
primary-key integrity error and inserts nothing (the stored row count for
that id is unchanged, so a table satisfying the primary-key invariant keeps
exactly one row); inserting a fresh `message_id` succeeds and adds exactly
one row for it. -/
theorem add_event_pk_semantics (tbl : List EventRow) (m : Message) (e : ParsedEvent) :
    (containsMessage tbl m.id = true →
      add_event tbl m e = Except.error PyError.integrityError) ∧
    (containsMessage tbl m.id = false →
      add_event tbl m e = Except.ok (tbl ++ [mkEventRow m e]) ∧
      countMessage (tbl ++ [mkEventRow m e]) m.id = countMessage tbl m.id + 1) := by
  constructor
  · intro h
    simp [add_event, h]
  · intro h
    refine ⟨by simp [add_event, h], ?_⟩
    simp [countMessage, List.filter_append, mkEventRow]

/-- C1 amended, witness: inserting message 5 into the empty table succeeds
with one row; the hypothesis of the fresh case is discharged at this input. -/
theorem add_event_pk_semantics_witness :
    add_event [] dupMsg dupEvent = Except.ok [mkEventRow dupMsg dupEvent] ∧
    countMessage [mkEventRow dupMsg dupEvent] dupMsg.id = countMessage [] dupMsg.id + 1 :=
  (add_event_pk_semantics [] dupMsg dupEvent).2 (by rfl)

/-- Python truthiness of the nullable `last_indexed_id` column, as tested by
`if last_id and ...` (main.py line 324) and
`if not snitch_channel.last_indexed_id` (main.py line 174): both `None` and
`0` are falsy. -/
def cursorActive : Option Nat → Bool
  | none => false
  | some n => n != 0

/-- Embedding of the history loop of `index_channel` (main.py lines 321-336):
`discord_channel.history(limit=None)` yields messages newest first; the loop
breaks at the first message with `id <= last_id` when a truthy cursor is
stored, silently skips messages the parser rejects
(`InvalidEventException`), and buffers `(message, event)` pairs for all
parser matches. -/
def collect_events (parse : String → Option ParsedEvent) (lastId : Option Nat) :
    List Message → List (Message × ParsedEvent)
  | [] => []
  | m :: rest =>
    if cursorActive lastId && decide (m.id ≤ lastId.getD 0) then []
    else
      match parse m.content with
      | none => collect_events parse lastId rest
      | some e => (m, e) :: collect_events parse lastId rest

/-- Unfolding equation of `collect_events` on a non-empty history. -/
theorem collect_events_cons (parse : String → Option ParsedEvent)
    (lastId : Option Nat) (m : Message) (rest : List Message) :
    collect_events parse lastId (m :: rest) =
      if cursorActive lastId && decide (m.id ≤ lastId.getD 0) then []
      else
        match parse m.content with
        | none => collect_events parse lastId rest
        | some e => (m, e) :: collect_events parse lastId rest := rfl

/-- Specification-side predicate: the message id is strictly beyond the
stored cursor (everything when the cursor is absent). -/
def newer_than_cursor (lastId : Option Nat) (mid : Nat) : Bool :=
  !(cursorActive lastId && decide (mid ≤ lastId.getD 0))

/-- Specification-side description of the buffered pairs: the parser matches
among the history messages strictly newer than the stored cursor. -/
def parsed_matches (parse : String → Option ParsedEvent) (lastId : Option Nat)
    (history : List Message) : List (Message × ParsedEvent) :=
  (history.filter (fun m => newer_than_cursor lastId m.id)).filterMap
    (fun m => (parse m.content).map (fun e => (m, e)))

/-- Unfolding of `parsed_matches` on a non-empty history. -/
theorem parsed_matches_cons (parse : String → Option ParsedEvent)
    (lastId : Option Nat) (m : Message) (rest : List Message) :
    parsed_matches parse lastId (m :: rest) =
      if newer_than_cursor lastId m.id then
        (match parse m.content with
         | none => parsed_matches parse lastId rest
         | some e => (m, e) :: parsed_matches parse lastId rest)
      else parsed_matches parse lastId rest := by
  by_cases h : newer_than_cursor lastId m.id
  · rw [if_pos h]
    unfold parsed_matches
    rw [List.filter_cons, if_pos h]
    rw [List.filterMap_cons]
    cases parse m.content <;> simp
  · rw [if_neg h]
    unfold parsed_matches
    rw [List.filter_cons, if_neg h]

/-- On a strictly descending history (discord's newest-first order), the
break-early loop of `index_channel` buffers exactly the parser matches among
the messages strictly newer than the cursor. -/
theorem collect_events_eq_parsed_matches (parse : String → Option ParsedEvent)
    (lastId : Option Nat) (history : List Message)
    (hsorted : history.Pairwise (fun a b => b.id < a.id)) :
    collect_events parse lastId history = parsed_matches parse lastId history := by
  induction history with
  | nil => rfl
  | cons m rest ih =>
    rcases List.pairwise_cons.mp hsorted with ⟨hm, hrest⟩
    rw [collect_events_cons, parsed_matches_cons]
    by_cases hbreak : (cursorActive lastId && decide (m.id ≤ lastId.getD 0)) = true
    · have hnew : newer_than_cursor lastId m.id = false := by
        simp only [newer_than_cursor, hbreak, Bool.not_true]
      have hrest_nil : parsed_matches parse lastId rest = [] := by
        unfold parsed_matches
        rw [List.filter_eq_nil_iff.mpr, List.filterMap_nil]
        intro a ha
        rcases Bool.and_eq_true_iff.mp hbreak with ⟨hact, hle⟩
        have hle2 : a.id ≤ lastId.getD 0 :=
          le_of_lt (lt_of_lt_of_le (hm a ha) (of_decide_eq_true hle))
        simp [newer_than_cursor, hact, hle2]
      rw [if_pos hbreak, hnew, if_neg (by simp), hrest_nil]
    · have hbf : (cursorActive lastId && decide (m.id ≤ lastId.getD 0)) = false :=
        Bool.not_eq_true _ ▸ eq_false_of_ne_true hbreak
      have hnew : newer_than_cursor lastId m.id = true := by
        simp [newer_than_cursor, hbf]
      rw [if_neg (by simp [hbf]), hnew, if_pos rfl]
      cases hp : parse m.content <;> simp [ih hrest]

/-- Result of the pure part of `index_channel`: the buffered
`(message, event)` pairs and the cursor value to write (`None` when the
channel has no messages, in which case the cursor update is skipped). -/
structure IndexResult where
  buffered : List (Message × ParsedEvent)
  cursorWrite : Option Nat
deriving DecidableEq

/-- Embedding of `index_channel` (main.py lines 314-349) up to its database
writes: buffer the matches, then read the channel's newest message
(`history(limit=1)`, the head of the newest-first history) to decide the
cursor write. -/
def index_channel (parse : String → Option ParsedEvent) (lastId : Option Nat)
    (history : List Message) : IndexResult :=
  { buffered := collect_events parse lastId history
    cursorWrite := history.head?.map (fun m => m.id) }

/-- Embedding of `db.update_last_indexed` (db.py lines 368-370): set
`last_indexed_id` of every `snitch_channel` row whose primary key matches. -/
def update_last_indexed (channels : List SnitchChannelRow)
    (channelId messageId : Nat) : List SnitchChannelRow :=
  channels.map (fun ch =>
    if ch.id == channelId then { ch with last_indexed_id := some messageId } else ch)

/-- Process-visible state of the ingestion core: the `snitch_channel` and
`event` tables, the `livemap_channel` table (guild id to output channel id),
and the in-memory `livemaps_refresh_at` map (output channel id to scheduled
refresh datetimes). -/
structure CoreState where
  channels : List SnitchChannelRow
  events : List EventRow
  livemaps : List (Nat × Nat)
  refreshAt : List (Nat × List Nat)
deriving DecidableEq

/-- The commit loop at the end of `index_channel` (main.py lines 345-347):
`db.add_event` for each buffered pair in order, propagating any primary-key
violation. -/
def addEvents (tbl : List EventRow) :
    List (Message × ParsedEvent) → Except PyError (List EventRow)
  | [] => Except.ok tbl
  | p :: rest =>
    match add_event tbl p.1 p.2 with
    | Except.error err => Except.error err
    | Except.ok tbl2 => addEvents tbl2 rest

/-- Membership in an appended event table. -/
theorem containsMessage_append (tbl1 tbl2 : List EventRow) (mid : Nat) :
    containsMessage (tbl1 ++ tbl2) mid =
      (containsMessage tbl1 mid || containsMessage tbl2 mid) := by
  simp [containsMessage, List.any_append]

/-- Committing buffered pairs whose message ids are fresh and pairwise
distinct appends exactly their rows. -/
theorem addEvents_ok (pairs : List (Message × ParsedEvent)) (tbl : List EventRow)
    (hfresh : ∀ p ∈ pairs, containsMessage tbl p.1.id = false)
    (hnodup : pairs.Pairwise (fun p q => p.1.id ≠ q.1.id)) :
    addEvents tbl pairs = Except.ok (tbl ++ pairs.map (fun p => mkEventRow p.1 p.2)) := by
  induction pairs generalizing tbl with
  | nil => simp [addEvents]
  | cons p rest ih =>
    rcases List.pairwise_cons.mp hnodup with ⟨hp, hrest⟩
    have hfp : containsMessage tbl p.1.id = false := hfresh p (by simp)
    have hstep : add_event tbl p.1 p.2 = Except.ok (tbl ++ [mkEventRow p.1 p.2]) := by
      simp [add_event, hfp]
    rw [addEvents, hstep]
    show addEvents (tbl ++ [mkEventRow p.1 p.2]) rest = _
    rw [ih (tbl ++ [mkEventRow p.1 p.2])]
    · simp
    · intro q hq
      rw [containsMessage_append, hfresh q (by simp [hq]), Bool.false_or]
      simp [containsMessage, mkEventRow]
      exact hp q hq
    · exact hrest

/-- A buffered pair's message comes from the history. -/
theorem mem_parsed_matches (parse : String → Option ParsedEvent)
    (lastId : Option Nat) (history : List Message) (p : Message × ParsedEvent)
    (hp : p ∈ parsed_matches parse lastId history) : p.1 ∈ history := by
  unfold parsed_matches at hp
  rcases List.mem_filterMap.mp hp with ⟨m, hm, hmap⟩
  rcases Option.map_eq_some'.mp hmap with ⟨e, _, hpe⟩
  rw [← hpe]
  exact List.mem_of_mem_filter hm

/-- The buffered pairs inherit pairwise-distinct message ids from the
history. -/
theorem parsed_matches_pairwise (parse : String → Option ParsedEvent)
    (lastId : Option Nat) (history : List Message)
    (h : history.Pairwise (fun a b => a.id ≠ b.id)) :
    (parsed_matches parse lastId history).Pairwise (fun p q => p.1.id ≠ q.1.id) := by
  induction history with
  | nil => simp [parsed_matches]
  | cons m rest ih =>
    rcases List.pairwise_cons.mp h with ⟨hm, hrest⟩
    rw [parsed_matches_cons]
    by_cases hnew : newer_than_cursor lastId m.id
    · rw [if_pos hnew]
      cases hp : parse m.content with
      | none => exact ih hrest
      | some e =>
        refine List.pairwise_cons.mpr ⟨?_, ih hrest⟩
        intro q hq
        exact hm q.1 (mem_parsed_matches parse lastId rest q hq)
    · rw [if_neg hnew]
      exact ih hrest

/-- The cursor part of the backfill commit: `update_last_indexed` when the
channel had a newest message, untouched channels otherwise. -/
def backfill_channels (channels : List SnitchChannelRow) (chId : Nat)
    (cursorWrite : Option Nat) : List SnitchChannelRow :=
  match cursorWrite with
  | some newId => update_last_indexed channels chId newId
  | none => channels

/-- Embedding of one call of `index_channel` applied to the database state,
exactly as the code sequences its writes: buffer the matches over the full
history, then `update_last_indexed` to the newest message's id provided the
channel has any messages at all, then `add_event` for every buffered pair. -/
def apply_index_channel (parse : String → Option ParsedEvent) (st : CoreState)
    (ch : SnitchChannelRow) (history : List Message) : Except PyError CoreState :=
  match addEvents st.events (index_channel parse ch.last_indexed_id history).buffered with
  | Except.error err => Except.error err
  | Except.ok events2 =>
    Except.ok
      { st with
        channels := backfill_channels st.channels ch.id
          (index_channel parse ch.last_indexed_id history).cursorWrite
        events := events2 }

/-- C2: backfill postcondition. On a strictly descending (newest-first)
history whose messages are not yet in the event table: if the history is
empty, `index_channel` writes nothing at all — the cursor is not touched and
live ingestion for the channel stays disabled; if the history is non-empty,
the events added are exactly the parser matches among messages strictly newer
than the prior cursor, and the cursor is set to the id of the newest message,
matching or not. -/
theorem index_channel_postcondition (parse : String → Option ParsedEvent)
    (st : CoreState) (ch : SnitchChannelRow) (history : List Message)
    (hsorted : history.Pairwise (fun a b => b.id < a.id))
    (hfresh : ∀ m ∈ history, containsMessage st.events m.id = false) :
    (history = [] → apply_index_channel parse st ch history = Except.ok st) ∧
    (∀ first rest, history = first :: rest →
      apply_index_channel parse st ch history = Except.ok
        { st with
          channels := update_last_indexed st.channels ch.id first.id
          events := st.events ++
            (parsed_matches parse ch.last_indexed_id history).map
              (fun p => mkEventRow p.1 p.2) }) := by
  have hbuf : collect_events parse ch.last_indexed_id history =
      parsed_matches parse ch.last_indexed_id history :=
    collect_events_eq_parsed_matches parse ch.last_indexed_id history hsorted
  have hnodup : history.Pairwise (fun a b : Message => a.id ≠ b.id) :=
    hsorted.imp (fun h => ne_of_gt h)
  have hadd : addEvents st.events (parsed_matches parse ch.last_indexed_id history) =
      Except.ok (st.events ++
        (parsed_matches parse ch.last_indexed_id history).map
          (fun p => mkEventRow p.1 p.2)) :=
    addEvents_ok _ st.events
      (fun p hp => hfresh p.1 (mem_parsed_matches parse ch.last_indexed_id history p hp))
      (parsed_matches_pairwise parse ch.last_indexed_id history hnodup)
  constructor
  · rintro rfl
    simp [apply_index_channel, index_channel, collect_events, addEvents,
      backfill_channels]
  · rintro first rest rfl
    simp only [apply_index_channel, index_channel, hbuf, hadd, List.head?_cons,
      Option.map_some', backfill_channels]

/-- Parser oracle used in witnesses: a message matches exactly when its
content is the literal string hit. -/
def wParse : String → Option ParsedEvent := fun s =>
  if s = "hit" then some dupEvent else none

/-- Witness message constructor: id doubles as the creation timestamp. -/
def wMsg (i : Nat) (c : String) : Message :=
  { id := i, channelId := 100, guildId := 1, content := c, createdAt := i }

/-- Witness history: five messages, newest first, of which three parse. -/
def wHistory : List Message :=
  [wMsg 10 "hit", wMsg 9 "chat", wMsg 8 "hit", wMsg 7 "chat", wMsg 6 "hit"]

/-- Witness snitch channel with no cursor yet. -/
def wChan : SnitchChannelRow :=
  { guild_id := 1, id := 100, last_indexed_id := none, allowed_roles := [55] }

/-- Witness core state holding only the witness channel. -/
def wSt : CoreState :=
  { channels := [wChan], events := [], livemaps := [], refreshAt := [] }

/-- C2 witness: on the concrete five-message history (three matches, two
non-matches, cursor absent) the backfill adds the three parsed events and
sets the cursor to the newest message id, 10. -/
theorem index_channel_postcondition_witness :
    apply_index_channel wParse wSt wChan wHistory = Except.ok
      { wSt with
        channels := update_last_indexed wSt.channels wChan.id 10
        events := wSt.events ++
          (parsed_matches wParse wChan.last_indexed_id wHistory).map
            (fun p => mkEventRow p.1 p.2) } :=
  (index_channel_postcondition wParse wSt wChan wHistory (by decide) (by decide)).2
    (wMsg 10 "hit") [wMsg 9 "chat", wMsg 8 "hit", wMsg 7 "chat", wMsg 6 "hit"] rfl

/-- Embedding of `db.get_snitch_channel` (db.py lines 355-366): select the
`snitch_channel` row by primary key, `None` when absent. -/
def get_snitch_channel (channels : List SnitchChannelRow) (channelId : Nat) :
    Option SnitchChannelRow :=
  channels.find? (fun ch => ch.id == channelId)

/-- What the startup drain loop does with one dequeued message. -/
inductive DrainAction where
  | discard
  | route
deriving DecidableEq

/-- Embedding of the per-message body of the reconciliation drain loop in
`on_ready` (main.py lines 124-148): look up the message's snitch channel and
evaluate `if snitch_channel and message.id <= snitch_channel.last_indexed_id`.
When the channel row exists but its `last_indexed_id` column is NULL, the
Python 3 comparison `int <= None` raises a `TypeError`; otherwise the message
is discarded when at or below the cursor and routed to
`maybe_index_message` when above it (or when the channel is unregistered). -/
def drain_step (channels : List SnitchChannelRow) (m : Message) :
    Except PyError DrainAction :=
  match get_snitch_channel channels m.channelId with
  | none => Except.ok DrainAction.route
  | some ch =>
    match ch.last_indexed_id with
    | none => Except.error PyError.typeError
    | some lastId =>
      if m.id ≤ lastId then Except.ok DrainAction.discard
      else Except.ok DrainAction.route

/-- Registered snitch channel whose backfill left the cursor absent (empty
history, see C2): `last_indexed_id` is NULL. -/
def drainChanNoCursor : SnitchChannelRow :=
  { guild_id := 1, id := 200, last_indexed_id := none, allowed_roles := [] }

/-- Registered snitch channel with a committed cursor at message 10. -/
def drainChanIndexed : SnitchChannelRow :=
  { guild_id := 1, id := 200, last_indexed_id := some 10, allowed_roles := [] }

/-- Queued message with id 5 in channel 200. -/
def drainMsg5 : Message :=
  { id := 5, channelId := 200, guildId := 1, content := "hit", createdAt := 5 }

/-- Queued message with id 15 in channel 200. -/
def drainMsg15 : Message :=
  { id := 15, channelId := 200, guildId := 1, content := "hit", createdAt := 15 }

/-- C3: evaluation of the drain step. A message at or below the post-backfill
cursor is discarded and one above it is routed, as claimed — but when the
dequeued message's registered channel has no committed cursor the code does
not route it: comparing the message id against the NULL cursor raises a
`TypeError`, aborting the drain. -/
theorem drain_step_absent_cursor_raises :
    drain_step [drainChanNoCursor] drainMsg5 = Except.error PyError.typeError ∧
    drain_step [drainChanIndexed] drainMsg5 = Except.ok DrainAction.discard ∧
    drain_step [drainChanIndexed] drainMsg15 = Except.ok DrainAction.route ∧
    drain_step [] drainMsg5 = Except.ok DrainAction.route :=
  ⟨rfl, rfl, rfl, rfl⟩

/-- Outcome of the out-of-process render job dispatched through
`ProcessPoolExecutor`: either the awaited future returns, or it raises. -/
inductive RenderOutcome where
  | success
  | failure
deriving DecidableEq

/-- Embedding of the concurrency-counter section of `render` (main.py lines
960-963): `concurrent_renders[guild] += 1`, dispatch and await the render,
`concurrent_renders[guild] -= 1`. There is no `try/finally` around the
dispatch, so when the awaited render raises, the exception propagates before
the decrement runs. Returns the guild's counter value at the point the call
leaves this section, and whether it completed without raising. -/
def render_dispatch_counter (counter : Nat) (outcome : RenderOutcome) : Nat × Bool :=
  let c1 := counter + 1
  match outcome with
  | RenderOutcome.success => (c1 - 1, true)
  | RenderOutcome.failure => (c1, false)

/-- C4: evaluation at the failing input. A render whose dispatched job raises
leaves the guild's concurrent-render counter at its incremented value — the
decrement is not in a `finally` block, so the counter does not return to its
pre-request value (here 1 instead of 0), permanently consuming one of the
guild's two render slots; only the success path restores it. -/
theorem render_counter_leaks_on_failure :
    render_dispatch_counter 0 RenderOutcome.failure = (1, false) ∧
    (1 : Nat) ≠ 0 ∧
    ∀ c : Nat, render_dispatch_counter c RenderOutcome.success = (c, true) :=
  ⟨rfl, by decide, fun c => by simp [render_dispatch_counter]⟩

/-- Per-request pixel ceiling for videos (`PIXEL_LIMIT_VIDEO`, main.py
line 43). -/
def PIXEL_LIMIT_VIDEO : Nat := 7500000000

/-- Trailing-24h pixel ceiling (`PIXEL_LIMIT_DAY`, main.py line 45). -/
def PIXEL_LIMIT_DAY : Nat := 500000000000

/-- Observable effects of one admission-gated render request. -/
structure AdmissionResult where
  rejectedPerRequest : Bool
  rejectedDaily : Bool
  dispatched : Bool
  ledgerAppended : Bool
deriving DecidableEq

/-- Embedding of the admission section of `render` (main.py lines 893-916 and
957-982): `num_pixels = duration * fps * (size * size)`; reject when it
exceeds `PIXEL_LIMIT_VIDEO` scaled by the guild multiplier; otherwise reject
when the trailing-24h usage exceeds the scaled `PIXEL_LIMIT_DAY`; otherwise
dispatch the render, and append the `render_history` ledger row
(`db.add_render_history`, main.py lines 981-982) only after the dispatched
block completes without raising. Rejections return before any dispatch or
ledger write. -/
def render_admission (duration fps size multiplier usage : Nat)
    (outcome : RenderOutcome) : AdmissionResult :=
  let numPixels := duration * fps * (size * size)
  if numPixels > PIXEL_LIMIT_VIDEO * multiplier then
    { rejectedPerRequest := true, rejectedDaily := false,
      dispatched := false, ledgerAppended := false }
  else if usage > PIXEL_LIMIT_DAY * multiplier then
    { rejectedPerRequest := false, rejectedDaily := true,
      dispatched := false, ledgerAppended := false }
  else
    match outcome with
    | RenderOutcome.failure =>
      { rejectedPerRequest := false, rejectedDaily := false,
        dispatched := true, ledgerAppended := false }
    | RenderOutcome.success =>
      { rejectedPerRequest := false, rejectedDaily := false,
        dispatched := true, ledgerAppended := true }

/-- C5: per-request admission boundary. With ceiling
`L = PIXEL_LIMIT_VIDEO * multiplier`: a request estimated at `L + 1` pixels
is rejected with no dispatch and no ledger entry; a request at exactly `L`
passes the per-request gate; and a ledger entry is appended only when the
render was actually dispatched. -/
theorem render_admission_boundary (duration fps size multiplier usage : Nat)
    (outcome : RenderOutcome) :
    (duration * fps * (size * size) = PIXEL_LIMIT_VIDEO * multiplier + 1 →
      render_admission duration fps size multiplier usage outcome =
        { rejectedPerRequest := true, rejectedDaily := false,
          dispatched := false, ledgerAppended := false }) ∧
    (duration * fps * (size * size) = PIXEL_LIMIT_VIDEO * multiplier →
      (render_admission duration fps size multiplier usage outcome).rejectedPerRequest
        = false) ∧
    ((render_admission duration fps size multiplier usage outcome).ledgerAppended = true →
      (render_admission duration fps size multiplier usage outcome).dispatched = true) := by
  refine ⟨fun h => ?_, fun h => ?_, fun h => ?_⟩
  · simp only [render_admission, h]
    rw [if_pos (Nat.lt_succ_self _)]
  · simp only [render_admission, h]
    rw [if_neg (lt_irrefl _)]
    split
    · rfl
    · cases outcome <;> rfl
  · revert h
    simp only [render_admission]
    split
    · simp
    · split
      · simp
      · cases outcome <;> simp

/-- C5 witness: a request of 7500000001 pixels (duration 7500000001, fps 1,
size 1, multiplier 1) is one pixel over the ceiling and is rejected with no
side effects; the hypothesis is discharged at this concrete input. -/
theorem render_admission_boundary_witness :
    render_admission 7500000001 1 1 1 0 RenderOutcome.success =
      { rejectedPerRequest := true, rejectedDaily := false,
        dispatched := false, ledgerAppended := false } :=
  (render_admission_boundary 7500000001 1 1 1 0 RenderOutcome.success).1
    (by norm_num [PIXEL_LIMIT_VIDEO])

/-- Embedding of `update_livemap` (main.py lines 248-270): if the output
channel id is already in `livemap_updating_channels` the call returns
immediately; otherwise the id is appended, the inner `_update_livemap` body
runs inside `try`, and the `finally` block removes the id again whether the
body returned or raised (`bodyRaises` selects which). Returns the resulting
`livemap_updating_channels` list, whether the inner refresh body ran, and
whether the call re-raised the body's exception. -/
def update_livemap (updating : List Nat) (channelId : Nat) (bodyRaises : Bool) :
    List Nat × Bool × Bool :=
  if channelId ∈ updating then (updating, false, false)
  else ((updating ++ [channelId]).erase channelId, true, bodyRaises)

/-- C6: single-flight refresh. A refresh invoked while the output channel is
already refreshing is dropped without running the refresh body and without
touching the state; otherwise the body runs exactly once and — on normal
completion and on an exception alike — the `finally` discipline removes the
channel id, so the channel is never left in the refreshing state. -/
theorem update_livemap_single_flight (updating : List Nat) (channelId : Nat)
    (bodyRaises : Bool) :
    (channelId ∈ updating →
      update_livemap updating channelId bodyRaises = (updating, false, false)) ∧
    (channelId ∉ updating →
      update_livemap updating channelId bodyRaises = (updating, true, bodyRaises) ∧
      channelId ∉ (update_livemap updating channelId bodyRaises).1) := by
  constructor
  · intro h
    simp [update_livemap, h]
  · intro h
    have herase : (updating ++ [channelId]).erase channelId = updating := by
      rw [List.erase_append_right _ h, List.erase_cons_head, List.append_nil]
    refine ⟨by simp [update_livemap, h, herase], ?_⟩
    simp [update_livemap, h, herase]

/-- C6 witness: with channel 7 mid-refresh a second refresh of 7 is dropped,
and a refresh of channel 3 whose body raises still ends with 3 released. -/
theorem update_livemap_single_flight_witness :
    update_livemap [7] 7 false = ([7], false, false) ∧
    (update_livemap [7] 3 true = ([7], true, true) ∧
      3 ∉ (update_livemap [7] 3 true).1) :=
  ⟨(update_livemap_single_flight [7] 7 false).1 (by decide),
   (update_livemap_single_flight [7] 3 true).2 (by decide)⟩

/-- Embedding of one channel's handling in the `check_outdated_livemaps`
sweep (main.py lines 195-214): `future_dts` keeps the scheduled datetimes
still strictly in the future; if nothing was due (`future_dts ==
refresh_at`) the channel is skipped; otherwise the schedule is replaced by
`future_dts` in one assignment and `update_livemap_channel` is invoked once,
provided the livemap channel row still exists. Returns the new schedule list
and the number of refresh invocations. -/
def sweep_channel (now : Nat) (refreshAt : List Nat) (livemapExists : Bool) :
    List Nat × Nat :=
  let futureDts := refreshAt.filter (fun dt => now < dt)
  if futureDts = refreshAt then (refreshAt, 0)
  else (futureDts, if livemapExists then 1 else 0)

/-- C7: sweep coalescing. When at least one scheduled timestamp is due
(not in the future), a single sweep drops every due timestamp at once —
the new schedule is exactly the not-yet-due timestamps — and invokes at most
one refresh for the channel, never one per due entry. -/
theorem sweep_channel_coalesces (now : Nat) (refreshAt : List Nat)
    (livemapExists : Bool) (hdue : ∃ dt ∈ refreshAt, dt ≤ now) :
    (sweep_channel now refreshAt livemapExists).1 =
      refreshAt.filter (fun dt => now < dt) ∧
    (sweep_channel now refreshAt livemapExists).2 ≤ 1 := by
  rcases hdue with ⟨dt, hmem, hle⟩
  have hne : refreshAt.filter (fun dt => now < dt) ≠ refreshAt := by
    intro heq
    have := List.filter_eq_self.mp heq dt hmem
    exact absurd (of_decide_eq_true this) (not_lt_of_le hle)
  constructor
  · simp [sweep_channel, hne]
  · simp only [sweep_channel, if_neg hne]
    split <;> simp

/-- C7 witness: a sweep at time 10 over five due timestamps and one future
timestamp keeps exactly the future one and performs one refresh call. -/
theorem sweep_channel_coalesces_witness :
    (sweep_channel 10 [5, 6, 7, 8, 9, 20] true).1 = [20] ∧
    (sweep_channel 10 [5, 6, 7, 8, 9, 20] true).2 ≤ 1 := by
  have h := sweep_channel_coalesces 10 [5, 6, 7, 8, 9, 20] true ⟨5, by decide, by decide⟩
  exact ⟨by rw [h.1]; rfl, h.2⟩

/-- Embedding of `db.get_livemap_channel` (db.py lines 503-509): the guild's
output channel id, `None` when no livemap channel is configured. -/
def get_livemap_channel (livemaps : List (Nat × Nat)) (guildId : Nat) : Option Nat :=
  (livemaps.find? (fun p => p.1 == guildId)).map (fun p => p.2)

/-- The burst of refresh timestamps generated by `update_livemap_channel`
(main.py lines 225-233): one 12 seconds from now, then one every 60 seconds
for the next 10 minutes. -/
def refresh_schedule (now : Nat) : List Nat :=
  (now + 12) :: (List.range 10).map (fun i => now + (i + 1) * 60)

/-- Assignment `livemaps_refresh_at[channel_id] = refresh_at` (main.py
line 235) on the in-memory schedule map. -/
def set_refresh_at (refreshAt : List (Nat × List Nat)) (channelId : Nat)
    (dts : List Nat) : List (Nat × List Nat) :=
  if refreshAt.any (fun p => p.1 == channelId) then
    refreshAt.map (fun p => if p.1 == channelId then (p.1, dts) else p)
  else refreshAt ++ [(channelId, dts)]

/-- Embedding of `maybe_index_message` (main.py lines 166-193), the live
ingestion handler: return untouched unless the message's channel is a
registered snitch channel with a truthy `last_indexed_id`; then try the
parser (configured formats in priority order, a no-op on
`InvalidEventException`); on a match, `add_event` (propagating a primary-key
violation, in which case the cursor is not advanced), advance the cursor to
this message's id, and — when the guild has a livemap channel — schedule its
refresh burst. The boolean records whether a refresh was scheduled. -/
def maybe_index_message (parse : String → Option ParsedEvent) (now : Nat)
    (st : CoreState) (m : Message) : Except PyError (CoreState × Bool) :=
  match get_snitch_channel st.channels m.channelId with
  | none => Except.ok (st, false)
  | some ch =>
    if cursorActive ch.last_indexed_id then
      match parse m.content with
      | none => Except.ok (st, false)
      | some e =>
        match add_event st.events m e with
        | Except.error err => Except.error err
        | Except.ok events2 =>
          match get_livemap_channel st.livemaps m.guildId with
          | none =>
            Except.ok
              ({ st with
                  events := events2
                  channels := update_last_indexed st.channels m.channelId m.id },
                false)
          | some lmChannelId =>
            Except.ok
              ({ st with
                  events := events2
                  channels := update_last_indexed st.channels m.channelId m.id
                  refreshAt := set_refresh_at st.refreshAt lmChannelId
                    (refresh_schedule now) },
                true)
    else Except.ok (st, false)

/-- C8: live-ingestion gate frame condition. For a message whose channel is
not a registered snitch channel, or whose snitch channel row has an absent
(`NULL`) `last_indexed_id`, the live ingestion handler returns with the state
untouched — no event row, no cursor write, no refresh scheduled for any
output channel. -/
theorem maybe_index_message_gate_noop (parse : String → Option ParsedEvent)
    (now : Nat) (st : CoreState) (m : Message)
    (h : get_snitch_channel st.channels m.channelId = none ∨
      ∃ ch, get_snitch_channel st.channels m.channelId = some ch ∧
        ch.last_indexed_id = none) :
    maybe_index_message parse now st m = Except.ok (st, false) := by
  rcases h with h | ⟨ch, hch, hnone⟩
  · unfold maybe_index_message
    rw [h]
  · unfold maybe_index_message
    rw [hch]
    have hact : cursorActive ch.last_indexed_id = false := by rw [hnone]; rfl
    simp [hact]

/-- Core state for the C8 witness: channel 200 registered but never
backfilled, and guild 1 has the livemap output channel 300 configured. -/
def gateSt : CoreState :=
  { channels := [drainChanNoCursor], events := [], livemaps := [(1, 300)],
    refreshAt := [] }

/-- C8 witness: a parseable message in the registered-but-unbackfilled
channel 200 leaves the state — events, cursor and refresh schedule —
untouched, with no refresh scheduled. -/
theorem maybe_index_message_gate_noop_witness :
    maybe_index_message wParse 0 gateSt drainMsg5 = Except.ok (gateSt, false) :=
  maybe_index_message_gate_noop wParse 0 gateSt drainMsg5
    (Or.inr ⟨drainChanNoCursor, rfl, rfl⟩)

/-- The stored cursor of a channel: `None` at the outer level when the
channel row is absent, `some None` when the row exists with a NULL
`last_indexed_id`. -/
def channel_cursor (channels : List SnitchChannelRow) (channelId : Nat) :
    Option (Option Nat) :=
  (get_snitch_channel channels channelId).map (fun ch => ch.last_indexed_id)

/-- Non-decrease order on nullable cursors: absent is below everything. -/
def opt_le : Option Nat → Option Nat → Prop
  | none, _ => True
  | some _, none => False
  | some a, some b => a ≤ b

/-- Non-decrease order on cursor lookups (row may be absent). -/
def cursor_le : Option (Option Nat) → Option (Option Nat) → Prop
  | none, _ => True
  | some _, none => False
  | some a, some b => opt_le a b

/-- Reflexivity of `opt_le`. -/
theorem opt_le_refl (a : Option Nat) : opt_le a a := by
  cases a <;> simp [opt_le]

/-- Reflexivity of `cursor_le`. -/
theorem cursor_le_refl (a : Option (Option Nat)) : cursor_le a a := by
  cases a <;> simp [cursor_le, opt_le_refl]

/-- The cursor write rewrites the found row in place: looking up any channel
after `update_last_indexed` returns the old row, with the cursor replaced
when the row is the write's target. -/
theorem get_snitch_channel_update (channels : List SnitchChannelRow)
    (t newId c : Nat) :
    get_snitch_channel (update_last_indexed channels t newId) c =
      (get_snitch_channel channels c).map
        (fun ch => if ch.id == t then { ch with last_indexed_id := some newId }
          else ch) := by
  unfold get_snitch_channel update_last_indexed
  rw [List.find?_map]
  have hp : ((fun ch : SnitchChannelRow => ch.id == c) ∘
      (fun ch => if ch.id == t then { ch with last_indexed_id := some newId }
        else ch)) = (fun ch : SnitchChannelRow => ch.id == c) := by
    funext ch
    by_cases h : ch.id == t
    · simp only [Function.comp, if_pos h]
    · simp only [Function.comp, if_neg h]
  rw [hp]

/-- A cursor write whose new id dominates the target row's stored cursor is
non-decreasing on every channel's cursor. -/
theorem cursor_mono_update (channels : List SnitchChannelRow) (t newId c : Nat)
    (h : ∀ chr ∈ channels, chr.id = t →
      ∀ l, chr.last_indexed_id = some l → l ≤ newId) :
    cursor_le (channel_cursor channels c)
      (channel_cursor (update_last_indexed channels t newId) c) := by
  unfold channel_cursor
  rw [get_snitch_channel_update]
  cases hfind : get_snitch_channel channels c with
  | none => simp [cursor_le]
  | some chr =>
    have hmem : chr ∈ channels := List.mem_of_find?_eq_some hfind
    by_cases hid : chr.id == t
    · simp only [Option.map_some', if_pos hid]
      show opt_le chr.last_indexed_id (some newId)
      cases hl : chr.last_indexed_id with
      | none => trivial
      | some l => exact h chr hmem (by simpa using hid) l hl
    · simp only [Option.map_some', if_neg hid]
      exact opt_le_refl _

/-- Channel 100 with its cursor at message 10. -/
def c9Chan10 : SnitchChannelRow :=
  { guild_id := 1, id := 100, last_indexed_id := some 10, allowed_roles := [55] }

/-- Channel 100 with its cursor at message 5. -/
def c9Chan5 : SnitchChannelRow :=
  { guild_id := 1, id := 100, last_indexed_id := some 5, allowed_roles := [55] }

/-- Channel 100 with its cursor at message 15. -/
def c9Chan15 : SnitchChannelRow :=
  { guild_id := 1, id := 100, last_indexed_id := some 15, allowed_roles := [55] }

/-- C9 counterexample state after backfilling channel 100 whose history is
the single matching message 10: cursor at 10, one stored event. -/
def c9St1 : CoreState :=
  { channels := [c9Chan10]
    events := [mkEventRow (wMsg 10 "hit") dupEvent]
    livemaps := []
    refreshAt := [] }

/-- C9 counterexample state after live ingestion of the matching message 5:
the cursor has moved back down to 5. -/
def c9St2 : CoreState :=
  { channels := [c9Chan5]
    events := [mkEventRow (wMsg 10 "hit") dupEvent, mkEventRow (wMsg 5 "hit") dupEvent]
    livemaps := []
    refreshAt := [] }

/-- State reached from `c9St1` by live ingestion of the matching message 15:
cursor advanced to 15. -/
def c9St3 : CoreState :=
  { channels := [c9Chan15]
    events := [mkEventRow (wMsg 10 "hit") dupEvent, mkEventRow (wMsg 15 "hit") dupEvent]
    livemaps := []
    refreshAt := [] }

/-- C9 counterexample: a concrete backfill-then-live sequence of this core
decreases the cursor. Starting from the registered, unindexed channel 100,
backfilling the one-message history sets the cursor to 10; live ingestion of
a parseable message with the smaller id 5 (not yet stored, so the insert
succeeds) then writes the cursor back down to 5 — `maybe_index_message`
advances the cursor to the message's id without comparing it to the stored
value, so `lastIndexedMessageId` decreases. -/
theorem cursor_decreases_counterexample :
    apply_index_channel wParse wSt wChan [wMsg 10 "hit"] = Except.ok c9St1 ∧
    maybe_index_message wParse 0 c9St1 (wMsg 5 "hit") = Except.ok (c9St2, false) ∧
    channel_cursor c9St1.channels 100 = some (some 10) ∧
    channel_cursor c9St2.channels 100 = some (some 5) ∧
    (5 : Nat) < 10 := by
  refine ⟨by decide, by decide, by decide, by decide, by decide⟩

/-- C9 amended: the cursor writes of the live ingestion handler and of the
backfill engine are unguarded (they store the message's id, respectively the
newest history message's id, without comparing against the stored cursor), so
monotonicity holds exactly when each operation's incoming id dominates the
channel's stored cursor — as the chat platform's strictly increasing message
ids provide — and in that case no channel's `last_indexed_id` decreases. -/
theorem cursor_monotone_amended (parse : String → Option ParsedEvent) (now : Nat)
    (st : CoreState) (m : Message) (ch : SnitchChannelRow) (history : List Message)
    (hlive : ∀ chr ∈ st.channels, chr.id = m.channelId →
      ∀ l, chr.last_indexed_id = some l → l ≤ m.id)
    (hback : ∀ first, history.head? = some first →
      ∀ chr ∈ st.channels, chr.id = ch.id →
      ∀ l, chr.last_indexed_id = some l → l ≤ first.id) :
    (∀ st2 fired, maybe_index_message parse now st m = Except.ok (st2, fired) →
      ∀ c, cursor_le (channel_cursor st.channels c) (channel_cursor st2.channels c)) ∧
    (∀ st2, apply_index_channel parse st ch history = Except.ok st2 →
      ∀ c, cursor_le (channel_cursor st.channels c) (channel_cursor st2.channels c)) := by
  constructor
  · intro st2 fired hok c
    unfold maybe_index_message at hok
    cases hfind : get_snitch_channel st.channels m.channelId with
    | none =>
      simp only [hfind, Except.ok.injEq, Prod.mk.injEq] at hok
      obtain ⟨rfl, rfl⟩ := hok
      exact cursor_le_refl _
    | some ch0 =>
      by_cases hact : cursorActive ch0.last_indexed_id
      · cases hp : parse m.content with
        | none =>
          simp only [hfind, hact, if_true, hp, Except.ok.injEq, Prod.mk.injEq] at hok
          obtain ⟨rfl, rfl⟩ := hok
          exact cursor_le_refl _
        | some e =>
          cases hadd : add_event st.events m e with
          | error err =>
            simp only [hfind, hact, if_true, hp, hadd] at hok
            exact Except.noConfusion hok
          | ok events2 =>
            cases hlm : get_livemap_channel st.livemaps m.guildId with
            | none =>
              simp only [hfind, hact, if_true, hp, hadd, hlm, Except.ok.injEq,
                Prod.mk.injEq] at hok
              obtain ⟨rfl, rfl⟩ := hok
              exact cursor_mono_update st.channels m.channelId m.id c hlive
            | some lm =>
              simp only [hfind, hact, if_true, hp, hadd, hlm, Except.ok.injEq,
                Prod.mk.injEq] at hok
              obtain ⟨rfl, rfl⟩ := hok
              exact cursor_mono_update st.channels m.channelId m.id c hlive
      · rw [Bool.not_eq_true] at hact
        simp only [hfind, hact, Bool.false_eq_true, if_false, Except.ok.injEq,
          Prod.mk.injEq] at hok
        obtain ⟨rfl, rfl⟩ := hok
        exact cursor_le_refl _
  · intro st2 hok c
    unfold apply_index_channel at hok
    cases hadd : addEvents st.events (index_channel parse ch.last_indexed_id history).buffered with
    | error err =>
      simp only [hadd] at hok
      exact Except.noConfusion hok
    | ok events2 =>
      simp only [hadd, Except.ok.injEq] at hok
      subst hok
      show cursor_le (channel_cursor st.channels c)
        (channel_cursor (backfill_channels st.channels ch.id
          (index_channel parse ch.last_indexed_id history).cursorWrite) c)
      cases hhead : history.head? with
      | none =>
        simp only [backfill_channels, index_channel, hhead, Option.map_none']
        exact cursor_le_refl _
      | some first =>
        simp only [backfill_channels, index_channel, hhead, Option.map_some']
        exact cursor_mono_update st.channels ch.id first.id c (hback first hhead)

/-- C9 amended witness: from the backfilled state with cursor 10, a live
message with the larger id 15 satisfies the dominance hypothesis, and the
cursor does not decrease. -/
theorem cursor_monotone_amended_witness :
    cursor_le (channel_cursor c9St1.channels 100) (channel_cursor c9St3.channels 100) :=
  (cursor_monotone_amended wParse 0 c9St1 (wMsg 15 "hit") wChan []
    (by intro chr hmem hid l hl
        simp only [c9St1, List.mem_singleton] at hmem
        subst hmem
        simp only [c9Chan10, Option.some.injEq] at hl
        subst hl
        decide)
    (by intro first hfirst
        cases hfirst)).1
    c9St3 false (by decide) 100

/-- Embedding of `db.get_snitch_channels` (db.py lines 299-323): an inner
join of `snitch_channel` with `snitch_channel_allowed_roles` (so a channel
with no role rows is dropped), restricted to the guild when the guild id is
truthy (`None` is modelled as 0, for which all channels are returned). -/
def get_snitch_channels (channels : List SnitchChannelRow) (guildId : Nat) :
    List SnitchChannelRow :=
  (if guildId == 0 then channels
   else channels.filter (fun ch => ch.guild_id == guildId)).filter
    (fun ch => !ch.allowed_roles.isEmpty)

/-- Embedding of the WHERE clause `get_events` builds through the `Where`
helper (db.py lines 13-30 and 400-409): each condition is skipped when its
parameter is falsy (`None`, `0`, or an empty list); the username and
namelayer-group filters compare the lowercased column against the given
lists. -/
def where_matches (guildId : Nat) (startT endT : Option Nat)
    (users groups : List String) (e : EventRow) : Bool :=
  (guildId == 0 || e.guild_id == guildId) &&
  (!cursorActive startT || decide (startT.getD 0 ≤ e.t)) &&
  (!cursorActive endT || decide (e.t ≤ endT.getD 0)) &&
  (users.isEmpty || users.contains e.username.toLower) &&
  (groups.isEmpty || groups.contains e.namelayer_group.toLower)

/-- The `roles` argument of `db.get_events`: either the special string value
`all` (permission check bypassed) or the member's list of role ids. -/
inductive RolesParam where
  | all
  | ofRoles (roleIds : List Nat)

/-- The channel-id set `get_events` accumulates (db.py lines 411-431): the
ids of the guild's snitch channels having at least one allowed role among the
requesting member's roles. -/
def visible_channel_ids (channels : List SnitchChannelRow) (guildId : Nat)
    (roleIds : List Nat) : List Nat :=
  ((get_snitch_channels channels guildId).filter
    (fun ch => ch.allowed_roles.any (fun r => roleIds.contains r))).map
    (fun ch => ch.id)

/-- Embedding of `db.get_events` (db.py lines 400-447): lowercase the user
filter, and unless `roles` is the special value `all`, compute the channels
visible to the given roles; when none is visible return the empty list
immediately, otherwise add `channel_id IN visible` to the WHERE clause and
select the matching event rows. -/
def get_events (channels : List SnitchChannelRow) (events : List EventRow)
    (guildId : Nat) (roles : RolesParam) (startT endT : Option Nat)
    (users groups : List String) : List EventRow :=
  match roles with
  | RolesParam.all =>
    events.filter
      (where_matches guildId startT endT (users.map (fun u => u.toLower)) groups)
  | RolesParam.ofRoles roleIds =>
    if (visible_channel_ids channels guildId roleIds).isEmpty then []
    else
      events.filter (fun e =>
        where_matches guildId startT endT (users.map (fun u => u.toLower)) groups e &&
        (visible_channel_ids channels guildId roleIds).contains e.channel_id)

/-- C10: event visibility filtering. For any role list (not the special
value `all`): every event `get_events` returns lives in a registered snitch
channel of the guild whose allowed roles meet the given roles, and when no
registered snitch channel is visible to any of the given roles the result is
the empty list. -/
theorem get_events_role_visibility (channels : List SnitchChannelRow)
    (events : List EventRow) (guildId : Nat) (roleIds : List Nat)
    (startT endT : Option Nat) (users groups : List String) :
    (∀ e ∈ get_events channels events guildId (RolesParam.ofRoles roleIds)
        startT endT users groups,
      ∃ ch ∈ get_snitch_channels channels guildId, ch.id = e.channel_id ∧
        ∃ r ∈ roleIds, r ∈ ch.allowed_roles) ∧
    ((∀ ch ∈ get_snitch_channels channels guildId, ∀ r ∈ roleIds,
        r ∉ ch.allowed_roles) →
      get_events channels events guildId (RolesParam.ofRoles roleIds)
        startT endT users groups = []) := by
  constructor
  · intro e he
    simp only [get_events] at he
    by_cases hemp : (visible_channel_ids channels guildId roleIds).isEmpty
    · rw [if_pos hemp] at he
      exact absurd he (List.not_mem_nil e)
    · rw [if_neg hemp] at he
      rcases List.mem_filter.mp he with ⟨-, hpred⟩
      rcases Bool.and_eq_true_iff.mp hpred with ⟨-, hcontains⟩
      have hidmem : e.channel_id ∈ visible_channel_ids channels guildId roleIds := by
        simpa using hcontains
      unfold visible_channel_ids at hidmem
      rcases List.mem_map.mp hidmem with ⟨ch, hchmem, hchid⟩
      rcases List.mem_filter.mp hchmem with ⟨hchin, hany⟩
      rcases List.any_eq_true.mp hany with ⟨r, hr, hrin⟩
      exact ⟨ch, hchin, hchid, r, by simpa using hrin, hr⟩
  · intro h
    simp only [get_events]
    have hnil : visible_channel_ids channels guildId roleIds = [] := by
      unfold visible_channel_ids
      rw [List.filter_eq_nil_iff.mpr, List.map_nil]
      intro ch hch hany
      rcases List.any_eq_true.mp hany with ⟨r, hrmem, hrin⟩
      exact h ch hch r (by simpa using hrin) hrmem
    rw [if_pos (by simp [hnil])]

/-- Concrete stored event in channel 100 of guild 1, used by the C10
witness. -/
def visEvent : EventRow := mkEventRow (wMsg 6 "hit") dupEvent

/-- C10 witness: with the single snitch channel 100 (guild 1, allowed role
55) and one stored event in it, role 55 receives the event through a visible
channel, while role 99 — visible to no channel — receives the empty list;
both membership hypotheses are discharged at these concrete inputs. -/
theorem get_events_role_visibility_witness :
    (∃ ch ∈ get_snitch_channels [wChan] 1, ch.id = visEvent.channel_id ∧
      ∃ r ∈ [55], r ∈ ch.allowed_roles) ∧
    get_events [wChan] [visEvent] 1 (RolesParam.ofRoles [99]) none none [] [] = [] :=
  ⟨(get_events_role_visibility [wChan] [visEvent] 1 [55] none none [] []).1
      visEvent (by decide),
   (get_events_role_visibility [wChan] [visEvent] 1 [99] none none [] []).2
      (by decide)⟩

end Snitchvis
